import Mathlib

set_option maxRecDepth 100000
set_option exponentiation.threshold 1000

/-!
Shallow embedding of the `kolme-dee` linear-algebra library
(`src/math/vector3d.rs`, `src/math/matrix3d.rs`).

The Rust code works on `f32` (IEEE-754 binary32).  We model `f32` values
executably: a value is NaN, a signed infinity, or a signed finite value
`(-1)^sign * m * 2^(E - 150)` where `E` plays the role of the biased
exponent (`E ∈ [1, 254]`, `2^23 ≤ m < 2^24` for normal numbers;
`E = 1`, `m < 2^23` for subnormals and zeros).  All arithmetic is
implemented by exact integer computation followed by round-to-nearest,
ties-to-even, exactly as IEEE-754 prescribes for `+`, `-`, `*`, `/` and
`sqrt` in the default rounding mode, which is what Rust's `f32`
operations provide.
-/

/-- Model of an IEEE-754 binary32 (`f32`) value.  A finite value
`finite s E m` denotes `(-1)^s * m * 2^(E - 150)`. -/
inductive F32 where
  | nan : F32
  | inf (sign : Bool) : F32
  | finite (sign : Bool) (E : Nat) (m : Nat) : F32
deriving DecidableEq

namespace F32

/-- Count how many `k < n` satisfy `f k`.  Used to locate the binary
exponent of a positive rational by monotone search. -/
def countB (f : Nat → Bool) : Nat → Nat
  | 0 => 0
  | k + 1 => countB f k + (if f k then 1 else 0)

/-- Round-to-nearest, ties-to-even, of the fraction with integer part
`q` and fractional part `r / B`. -/
def rnEven (q r B : Nat) : Nat :=
  if 2 * r < B then q
  else if B < 2 * r then q + 1
  else if q % 2 = 0 then q else q + 1

/-- Package an exponent `E` and rounded significand `m` into an `f32`,
performing the rounding carry (`m = 2^24` bumps the exponent) and
overflow to infinity at biased exponent `255`. -/
def mkFin (sign : Bool) (E m : Nat) : F32 :=
  if m = 0 then finite sign 1 0
  else if m < 2 ^ 24 then finite sign E m
  else if E + 1 = 255 then inf sign
  else finite sign (E + 1) (m / 2)

/-- The (clamped biased) exponent of the positive rational `num / den`:
`max c 1` where `c` counts the `k < 254` with `2^(k-127) ≤ num/den`;
values below `2^-126` land in the subnormal range `E = 1`. -/
def expOf (num den : Nat) : Nat :=
  max (countB (fun k => decide (2 ^ k * den ≤ num * 2 ^ 126)) 254) 1

/-- Round `num / den` at exponent `E`: the significand is
`num/den * 2^(150-E)` (so a normal result has `2^23 ≤ m < 2^24`),
rounded to nearest even by exact integer division with remainder. -/
def roundAt (sign : Bool) (E num den : Nat) : F32 :=
  mkFin sign E (rnEven (num * 2 ^ 150 / (den * 2 ^ E)) (num * 2 ^ 150 % (den * 2 ^ E)) (den * 2 ^ E))

/-- Round the nonnegative rational `num / den` to the nearest `f32`
(ties to even), with the given result sign.  This is the IEEE-754
round-to-nearest-even operation binary32 arithmetic is defined by. -/
def roundPos (sign : Bool) (num den : Nat) : F32 :=
  if num = 0 then .finite sign 1 0
  else roundAt sign (expOf num den) num den

/-- The `f32` value of the decimal literal `num / den` (e.g. `3.5` is
`ofDec 35 10`): Rust converts decimal float literals to the nearest
representable `f32`, ties to even. -/
def ofDec (num den : Nat) : F32 := roundPos false num den

/-- The `f32` value of a small natural-number literal such as `2.0`. -/
def ofN (n : Nat) : F32 := roundPos false n 1

/-- Positive zero, the `f32` literal `0.0`. -/
def zero : F32 := finite false 1 0

/-- Negation: flips the sign bit (`-0.0` from `0.0`, `-inf` from `inf`);
the sign of NaN is not observable through any operation we model. -/
def fneg : F32 → F32
  | nan => nan
  | inf s => inf (!s)
  | finite s E m => finite (!s) E m

/-- The exact value of a finite `f32`, scaled by `2^150`, as an integer;
`0` on NaN and infinities. -/
def scaled : F32 → Int
  | finite s E m => (if s then -1 else 1) * (m * 2 ^ E : Nat)
  | _ => 0

/-- IEEE-754 binary32 addition (round to nearest, ties to even):
the exact sum of the scaled integer values is rounded; an exact zero
sum is `+0.0` except that `(-0.0) + (-0.0) = -0.0`. -/
def fadd : F32 → F32 → F32
  | nan, _ => nan
  | _, nan => nan
  | inf s, inf t => if s = t then inf s else nan
  | inf s, finite _ _ _ => inf s
  | finite _ _ _, inf t => inf t
  | finite s1 E1 m1, finite s2 E2 m2 =>
    if scaled (finite s1 E1 m1) + scaled (finite s2 E2 m2) = 0 then
      if m1 = 0 && m2 = 0 then finite (s1 && s2) 1 0 else finite false 1 0
    else
      roundPos (decide (scaled (finite s1 E1 m1) + scaled (finite s2 E2 m2) < 0))
        (scaled (finite s1 E1 m1) + scaled (finite s2 E2 m2)).natAbs (2 ^ 150)

/-- IEEE-754 binary32 subtraction; per IEEE-754, `x - y = x + (-y)`
in every case (signs of zeros included). -/
def fsub (x y : F32) : F32 := fadd x (fneg y)

/-- IEEE-754 binary32 multiplication: the exact product
`m1*m2*2^(E1+E2-300)` is rounded; `inf * 0` is NaN. -/
def fmul : F32 → F32 → F32
  | nan, _ => nan
  | _, nan => nan
  | inf s, inf t => inf (xor s t)
  | inf s, finite t _ m => if m = 0 then nan else inf (xor s t)
  | finite s _ m, inf t => if m = 0 then nan else inf (xor s t)
  | finite s1 E1 m1, finite s2 E2 m2 =>
    roundPos (xor s1 s2) (m1 * m2 * 2 ^ (E1 + E2)) (2 ^ 300)

/-- IEEE-754 binary32 division: `x / 0.0` is `±inf` for finite nonzero
`x`, NaN for `0.0 / 0.0`; otherwise the exact quotient
`(m1*2^E1)/(m2*2^E2)` is rounded. -/
def fdiv : F32 → F32 → F32
  | nan, _ => nan
  | _, nan => nan
  | inf _, inf _ => nan
  | inf s, finite t _ _ => inf (xor s t)
  | finite s _ _, inf t => finite (xor s t) 1 0
  | finite s1 E1 m1, finite s2 E2 m2 =>
    if m2 = 0 then (if m1 = 0 then nan else inf (xor s1 s2))
    else roundPos (xor s1 s2) (m1 * 2 ^ E1) (m2 * 2 ^ E2)

/-- Integer square root restricted to results below `2^25`: the largest
`a < 2^25` with `a^2 ≤ n`, found bit by bit (restoring method). -/
def isqrtAux (n : Nat) : Nat → Nat → Nat
  | 0, acc => acc
  | i + 1, acc => if (acc + 2 ^ i) * (acc + 2 ^ i) ≤ n then isqrtAux n i (acc + 2 ^ i) else isqrtAux n i acc

/-- IEEE-754 binary32 square root (round to nearest, ties to even):
`sqrt(±0) = ±0`, `sqrt` of a negative value is NaN, `sqrt(+inf) = +inf`;
for positive finite input the correctly rounded root is computed by
exact integer comparisons against the squared half-way points. -/
def fsqrt : F32 → F32
  | nan => nan
  | inf s => if s then nan else inf false
  | finite s E m =>
    if m = 0 then finite s 1 0
    else if s then nan
    else
      let c := countB (fun k => decide (2 ^ (2 * k) ≤ m * 2 ^ E)) 139
      let K := c - 1
      let X := E + 46
      let Tnum := if 2 * K ≤ X then m * 2 ^ (X - 2 * K) else m
      let Tden := if 2 * K ≤ X then 1 else 2 ^ (2 * K - X)
      let mf := isqrtAux (Tnum / Tden) 25 0
      let m' := if Tden * (4 * mf * mf + 4 * mf + 1) < 4 * Tnum then mf + 1
                else if 4 * Tnum < Tden * (4 * mf * mf + 4 * mf + 1) then mf
                else if mf % 2 = 0 then mf else mf + 1
      if m' < 2 ^ 24 then finite false (K + 52) m'
      else finite false (K + 53) (2 ^ 23)

/-- IEEE-754 `==` on `f32` (Rust's `PartialEq` for `f32`): NaN compares
unequal to everything (itself included), `+0.0 == -0.0`, and otherwise
two values are equal iff they are the same sign, exponent and mantissa. -/
def feq : F32 → F32 → Bool
  | finite s1 E1 m1, finite s2 E2 m2 =>
    if m1 = 0 && m2 = 0 then true
    else s1 == s2 && E1 == E2 && m1 == m2
  | inf s, inf t => s == t
  | _, _ => false

/-- The `f32` value of an integer literal such as `-13.0`. -/
def ofZ (i : Int) : F32 :=
  if i < 0 then roundPos true i.natAbs 1 else roundPos false i.natAbs 1

/-- Whether a value is finite (neither NaN nor an infinity). -/
def isFinite : F32 → Bool
  | finite _ _ _ => true
  | _ => false

/-- Whether a value is NaN or an infinity (`f32::is_finite` negated). -/
def isNonFinite : F32 → Bool
  | finite _ _ _ => false
  | _ => true

/-- The representation invariant of finite values: zero and subnormals
have `E = 1` and `m < 2^23`; normal values have `1 ≤ E ≤ 254` and
`2^23 ≤ m < 2^24`.  Every value built by the arithmetic above
satisfies it. -/
def validFin (E m : Nat) : Prop :=
  (m = 0 ∧ E = 1) ∨ (E = 1 ∧ 0 < m ∧ m < 2 ^ 23) ∨
    (1 ≤ E ∧ E ≤ 254 ∧ 2 ^ 23 ≤ m ∧ m < 2 ^ 24)

instance (E m : Nat) : Decidable (validFin E m) := by
  unfold validFin
  infer_instance

/-- Decidable form of the representation invariant (NaN and infinities
are unconstrained). -/
def validB : F32 → Bool
  | finite _ E m => decide (validFin E m)
  | _ => true

end F32

/-!  ## Vector3D (`src/math/vector3d.rs`)  -/

/-- `Vector3D`: three named `f32` components. -/
structure Vector3D where
  x : F32
  y : F32
  z : F32
deriving DecidableEq

namespace Vector3D

/-- `Vector3D::new(x, y, z)`. -/
def new (x y z : F32) : Vector3D := ⟨x, y, z⟩

/-- `impl Add for &Vector3D`: componentwise sum. -/
def add (a b : Vector3D) : Vector3D := ⟨F32.fadd a.x b.x, F32.fadd a.y b.y, F32.fadd a.z b.z⟩

/-- `impl Sub for Vector3D`: componentwise difference. -/
def sub (a b : Vector3D) : Vector3D := ⟨F32.fsub a.x b.x, F32.fsub a.y b.y, F32.fsub a.z b.z⟩

/-- `impl Neg for Vector3D`: componentwise negation. -/
def neg (a : Vector3D) : Vector3D := ⟨F32.fneg a.x, F32.fneg a.y, F32.fneg a.z⟩

/-- `impl Div<f32> for &Vector3D`: componentwise division by a scalar. -/
def div (a : Vector3D) (rhs : F32) : Vector3D :=
  ⟨F32.fdiv a.x rhs, F32.fdiv a.y rhs, F32.fdiv a.z rhs⟩

/-- `Vector3D::magnitude`: `(x*x + y*y + z*z).sqrt()`, with Rust's
left-to-right association of the two `+`. -/
def magnitude (v : Vector3D) : F32 :=
  F32.fsqrt (F32.fadd (F32.fadd (F32.fmul v.x v.x) (F32.fmul v.y v.y)) (F32.fmul v.z v.z))

/-- `Vector3D::normalize`: `self / self.magnitude()`. -/
def normalize (v : Vector3D) : Vector3D := div v (magnitude v)

/-- `impl Index<usize> for Vector3D`: `0/1/2` select `x/y/z`; any other
index panics ("Index out of bounds") — the panic is modelled as `none`. -/
def get? (v : Vector3D) : Nat → Option F32
  | 0 => some v.x
  | 1 => some v.y
  | 2 => some v.z
  | _ + 3 => none

/-- `impl IndexMut<usize> for Vector3D` followed by assignment of `a`:
`0/1/2` write `x/y/z`; any other index panics, modelled as `none`. -/
def set? (v : Vector3D) (i : Nat) (a : F32) : Option Vector3D :=
  match i with
  | 0 => some ⟨a, v.y, v.z⟩
  | 1 => some ⟨v.x, a, v.z⟩
  | 2 => some ⟨v.x, v.y, a⟩
  | _ + 3 => none

/-- In-bounds component read (the `0/1/2` arms of `impl Index<usize>`). -/
def nth (v : Vector3D) : Fin 3 → F32
  | 0 => v.x
  | 1 => v.y
  | 2 => v.z

/-- In-bounds component write (the `0/1/2` arms of `impl IndexMut<usize>`). -/
def setNth (v : Vector3D) (r : Fin 3) (a : F32) : Vector3D :=
  match r with
  | 0 => ⟨a, v.y, v.z⟩
  | 1 => ⟨v.x, a, v.z⟩
  | 2 => ⟨v.x, v.y, a⟩

/-- derived `PartialEq` for `Vector3D`: componentwise `f32 ==`. -/
def beq (a b : Vector3D) : Bool :=
  F32.feq a.x b.x && F32.feq a.y b.y && F32.feq a.z b.z

end Vector3D

/-!  ## Matrix3D (`src/math/matrix3d.rs`)  -/

/-- `Matrix3D`: nine `f32` entries in column-major storage, mirroring
`n: [[f32; 3]; 3]`; `n j i` is column `j`, row `i`. -/
structure Matrix3D where
  n : Fin 3 → Fin 3 → F32

namespace Matrix3D

/-- `Matrix3D::new(n00..n22)`: arguments in row-major reading order,
stored as `[[n00, n10, n20], [n01, n11, n21], [n02, n12, n22]]`. -/
def new (n00 n01 n02 n10 n11 n12 n20 n21 n22 : F32) : Matrix3D :=
  ⟨fun j => match j with
    | 0 => fun i => match i with | 0 => n00 | 1 => n10 | 2 => n20
    | 1 => fun i => match i with | 0 => n01 | 1 => n11 | 2 => n21
    | 2 => fun i => match i with | 0 => n02 | 1 => n12 | 2 => n22⟩

/-- `Matrix3D::from_vectors(v1, v2, v3)`: stores
`[[v1[0], v1[1], v1[2]], [v2[0], ...], [v3[0], ...]]` (the vectors
become the columns). -/
def from_vectors (v1 v2 v3 : Vector3D) : Matrix3D :=
  ⟨fun j => match j with
    | 0 => fun i => v1.nth i
    | 1 => fun i => v2.nth i
    | 2 => fun i => v3.nth i⟩

/-- `impl Index<(usize, usize)> for Matrix3D` at an in-bounds pair:
`m[(i, j)]` reads `self.n[j][i]` (row-column notation over the
column-major storage). -/
def entry (M : Matrix3D) (i j : Fin 3) : F32 := M.n j i

/-- `impl Index<(usize, usize)>` with arbitrary `usize` arguments: the
body `&self.n[j][i]` is plain Rust array indexing, which bounds-checks
and panics when `j ≥ 3` or `i ≥ 3`; the panic is modelled as `none`. -/
def get? (M : Matrix3D) (i j : Nat) : Option F32 :=
  if hj : j < 3 then
    if hi : i < 3 then some (M.n ⟨j, hj⟩ ⟨i, hi⟩) else none
  else none

/-- `impl IndexMut<(usize, usize)>` followed by assignment of `a`:
in-bounds writes `self.n[j][i]`; out of bounds the array indexing
panics, modelled as `none`. -/
def set? (M : Matrix3D) (i j : Nat) (a : F32) : Option Matrix3D :=
  if hj : j < 3 then
    if hi : i < 3 then
      some ⟨fun j' i' => if j' = ⟨j, hj⟩ ∧ i' = ⟨i, hi⟩ then a else M.n j' i'⟩
    else none
  else none

/-- In-bounds `m[(i, j)] = a` (the mutable pair accessor). -/
def setEntry (M : Matrix3D) (i j : Fin 3) (a : F32) : Matrix3D :=
  ⟨fun j' i' => if j' = j ∧ i' = i then a else M.n j' i'⟩

/-- `impl Index<usize> for Matrix3D`: the column `self.n[index]`
reinterpreted (`mem::transmute`) as a `Vector3D`; the value read
through that view is the column's three floats as `(x, y, z)`. -/
def col (M : Matrix3D) (j : Fin 3) : Vector3D := ⟨M.n j 0, M.n j 1, M.n j 2⟩

/-- `impl IndexMut<usize> for Matrix3D` followed by assignment of `v`:
writing a `Vector3D` through the transmuted column view stores
`(v.x, v.y, v.z)` into column `j` in place. -/
def setCol (M : Matrix3D) (j : Fin 3) (v : Vector3D) : Matrix3D :=
  ⟨fun j' i' => if j' = j then v.nth i' else M.n j' i'⟩

/-- `impl Mul<Matrix3D> for Matrix3D`, transcribed entry by entry:
each argument to `Matrix3D::new` is
`self.n[0][r]*rhs.n[c][0] + self.n[1][r]*rhs.n[c][1] + self.n[2][r]*rhs.n[c][2]`
with Rust's left-to-right association of the two `+`. -/
def mul (a b : Matrix3D) : Matrix3D :=
  Matrix3D.new
    (F32.fadd (F32.fadd (F32.fmul (a.n 0 0) (b.n 0 0)) (F32.fmul (a.n 1 0) (b.n 0 1))) (F32.fmul (a.n 2 0) (b.n 0 2)))
    (F32.fadd (F32.fadd (F32.fmul (a.n 0 0) (b.n 1 0)) (F32.fmul (a.n 1 0) (b.n 1 1))) (F32.fmul (a.n 2 0) (b.n 1 2)))
    (F32.fadd (F32.fadd (F32.fmul (a.n 0 0) (b.n 2 0)) (F32.fmul (a.n 1 0) (b.n 2 1))) (F32.fmul (a.n 2 0) (b.n 2 2)))
    (F32.fadd (F32.fadd (F32.fmul (a.n 0 1) (b.n 0 0)) (F32.fmul (a.n 1 1) (b.n 0 1))) (F32.fmul (a.n 2 1) (b.n 0 2)))
    (F32.fadd (F32.fadd (F32.fmul (a.n 0 1) (b.n 1 0)) (F32.fmul (a.n 1 1) (b.n 1 1))) (F32.fmul (a.n 2 1) (b.n 1 2)))
    (F32.fadd (F32.fadd (F32.fmul (a.n 0 1) (b.n 2 0)) (F32.fmul (a.n 1 1) (b.n 2 1))) (F32.fmul (a.n 2 1) (b.n 2 2)))
    (F32.fadd (F32.fadd (F32.fmul (a.n 0 2) (b.n 0 0)) (F32.fmul (a.n 1 2) (b.n 0 1))) (F32.fmul (a.n 2 2) (b.n 0 2)))
    (F32.fadd (F32.fadd (F32.fmul (a.n 0 2) (b.n 1 0)) (F32.fmul (a.n 1 2) (b.n 1 1))) (F32.fmul (a.n 2 2) (b.n 1 2)))
    (F32.fadd (F32.fadd (F32.fmul (a.n 0 2) (b.n 2 0)) (F32.fmul (a.n 1 2) (b.n 2 1))) (F32.fmul (a.n 2 2) (b.n 2 2)))

/-- derived `PartialEq` for `Matrix3D`: elementwise `f32 ==` over the
nested arrays. -/
def beq (a b : Matrix3D) : Bool :=
  decide (∀ j i : Fin 3, F32.feq (a.n j i) (b.n j i) = true)

end Matrix3D

/-!  ## Helper lemmas  -/

/-- `f32 ==` is reflexive away from NaN. -/
theorem F32.feq_self (x : F32) (h : x ≠ F32.nan) : F32.feq x x = true := by
  cases x with
  | nan => exact absurd rfl h
  | inf s => simp [F32.feq]
  | finite s E m =>
    by_cases hm : m = 0 <;> simp [F32.feq, hm]

/-- Negation is an involution on the representation (sign-bit flip). -/
theorem F32.fneg_fneg (x : F32) : F32.fneg (F32.fneg x) = x := by
  cases x <;> simp [F32.fneg]

/-- Dividing any `f32` by `+0.0` never yields a finite value: it is
`±inf` (finite nonzero or infinite numerator) or NaN (`0.0/0.0`,
NaN numerator). -/
theorem F32.fdiv_zero_nonFin (x : F32) : (F32.fdiv x F32.zero).isNonFinite = true := by
  cases x with
  | nan => rfl
  | inf s => rfl
  | finite s E m =>
    by_cases hm : m = 0 <;> simp [F32.fdiv, F32.zero, hm, F32.isNonFinite]

/-!  ## Claims  -/

/-- C1: `Matrix3D` multiplication computes the standard matrix product:
entry `(row, col)` of `mul a b` is the sum over `k ∈ [0,2]` of
`a(row,k) * b(k,col)` (as `f32` operations, summed left to right); and
multiplying `new(1,3,-2, 0,-1,4, 4,-3,2)` by `new(2,-2,3, 1,5,3, -3,4,1)`
yields exactly `new(11,5,10, -13,11,1, -1,-15,5)`. -/
theorem matrix_mul_spec :
    (∀ (a b : Matrix3D) (row col : Fin 3),
      (Matrix3D.mul a b).entry row col =
        F32.fadd (F32.fadd (F32.fmul (a.entry row 0) (b.entry 0 col))
            (F32.fmul (a.entry row 1) (b.entry 1 col)))
          (F32.fmul (a.entry row 2) (b.entry 2 col))) ∧
    Matrix3D.beq
      (Matrix3D.mul
        (Matrix3D.new (F32.ofZ 1) (F32.ofZ 3) (F32.ofZ (-2))
          (F32.ofZ 0) (F32.ofZ (-1)) (F32.ofZ 4)
          (F32.ofZ 4) (F32.ofZ (-3)) (F32.ofZ 2))
        (Matrix3D.new (F32.ofZ 2) (F32.ofZ (-2)) (F32.ofZ 3)
          (F32.ofZ 1) (F32.ofZ 5) (F32.ofZ 3)
          (F32.ofZ (-3)) (F32.ofZ 4) (F32.ofZ 1)))
      (Matrix3D.new (F32.ofZ 11) (F32.ofZ 5) (F32.ofZ 10)
        (F32.ofZ (-13)) (F32.ofZ 11) (F32.ofZ 1)
        (F32.ofZ (-1)) (F32.ofZ (-15)) (F32.ofZ 5)) = true := by
  constructor
  · intro a b row col
    fin_cases row <;> fin_cases col <;> rfl
  · decide

/-- C2: the column-major layout invariant.  `new(n00..n22)` (row-major
arguments) satisfies: the `(row, col)` accessor returns `n_rowcol` and
whole-column index `c` returns the vector `(n0c, n1c, n2c)`; the same
holds for `from_vectors` (its arguments become the columns); and
`new(1..9)` has columns `(1,4,7), (2,5,8), (3,6,9)` and entry `(1,2)`
equal to `6.0`. -/
theorem matrix_layout_spec :
    (∀ n00 n01 n02 n10 n11 n12 n20 n21 n22 : F32,
      (Matrix3D.new n00 n01 n02 n10 n11 n12 n20 n21 n22).entry 0 0 = n00 ∧
      (Matrix3D.new n00 n01 n02 n10 n11 n12 n20 n21 n22).entry 0 1 = n01 ∧
      (Matrix3D.new n00 n01 n02 n10 n11 n12 n20 n21 n22).entry 0 2 = n02 ∧
      (Matrix3D.new n00 n01 n02 n10 n11 n12 n20 n21 n22).entry 1 0 = n10 ∧
      (Matrix3D.new n00 n01 n02 n10 n11 n12 n20 n21 n22).entry 1 1 = n11 ∧
      (Matrix3D.new n00 n01 n02 n10 n11 n12 n20 n21 n22).entry 1 2 = n12 ∧
      (Matrix3D.new n00 n01 n02 n10 n11 n12 n20 n21 n22).entry 2 0 = n20 ∧
      (Matrix3D.new n00 n01 n02 n10 n11 n12 n20 n21 n22).entry 2 1 = n21 ∧
      (Matrix3D.new n00 n01 n02 n10 n11 n12 n20 n21 n22).entry 2 2 = n22 ∧
      (Matrix3D.new n00 n01 n02 n10 n11 n12 n20 n21 n22).col 0 = ⟨n00, n10, n20⟩ ∧
      (Matrix3D.new n00 n01 n02 n10 n11 n12 n20 n21 n22).col 1 = ⟨n01, n11, n21⟩ ∧
      (Matrix3D.new n00 n01 n02 n10 n11 n12 n20 n21 n22).col 2 = ⟨n02, n12, n22⟩) ∧
    (∀ (v1 v2 v3 : Vector3D) (r : Fin 3),
      (Matrix3D.from_vectors v1 v2 v3).entry r 0 = v1.nth r ∧
      (Matrix3D.from_vectors v1 v2 v3).entry r 1 = v2.nth r ∧
      (Matrix3D.from_vectors v1 v2 v3).entry r 2 = v3.nth r) ∧
    (Vector3D.beq
      ((Matrix3D.new (F32.ofZ 1) (F32.ofZ 2) (F32.ofZ 3) (F32.ofZ 4) (F32.ofZ 5)
        (F32.ofZ 6) (F32.ofZ 7) (F32.ofZ 8) (F32.ofZ 9)).col 0)
      (Vector3D.new (F32.ofZ 1) (F32.ofZ 4) (F32.ofZ 7)) = true ∧
    Vector3D.beq
      ((Matrix3D.new (F32.ofZ 1) (F32.ofZ 2) (F32.ofZ 3) (F32.ofZ 4) (F32.ofZ 5)
        (F32.ofZ 6) (F32.ofZ 7) (F32.ofZ 8) (F32.ofZ 9)).col 1)
      (Vector3D.new (F32.ofZ 2) (F32.ofZ 5) (F32.ofZ 8)) = true ∧
    Vector3D.beq
      ((Matrix3D.new (F32.ofZ 1) (F32.ofZ 2) (F32.ofZ 3) (F32.ofZ 4) (F32.ofZ 5)
        (F32.ofZ 6) (F32.ofZ 7) (F32.ofZ 8) (F32.ofZ 9)).col 2)
      (Vector3D.new (F32.ofZ 3) (F32.ofZ 6) (F32.ofZ 9)) = true ∧
    F32.feq
      ((Matrix3D.new (F32.ofZ 1) (F32.ofZ 2) (F32.ofZ 3) (F32.ofZ 4) (F32.ofZ 5)
        (F32.ofZ 6) (F32.ofZ 7) (F32.ofZ 8) (F32.ofZ 9)).entry 1 2)
      (F32.ofZ 6) = true) := by
  refine ⟨?_, ?_, by decide⟩
  · intro n00 n01 n02 n10 n11 n12 n20 n21 n22
    exact ⟨rfl, rfl, rfl, rfl, rfl, rfl, rfl, rfl, rfl, rfl, rfl, rfl⟩
  · intro v1 v2 v3 r
    fin_cases r <;> exact ⟨rfl, rfl, rfl⟩

/-- C4: vector indexed access: positions `0, 1, 2` read/write `x, y, z`;
every index greater than `2` panics (modelled `none`), for both the read
and the write path; and `(1,2,3)` indexed at `0/1/2` yields
`1.0/2.0/3.0` while index `3` panics. -/
theorem vector_index_spec :
    (∀ (v : Vector3D) (a : F32),
      v.get? 0 = some v.x ∧ v.get? 1 = some v.y ∧ v.get? 2 = some v.z ∧
      v.set? 0 a = some ⟨a, v.y, v.z⟩ ∧
      v.set? 1 a = some ⟨v.x, a, v.z⟩ ∧
      v.set? 2 a = some ⟨v.x, v.y, a⟩ ∧
      (∀ i : Nat, 2 < i → v.get? i = none ∧ v.set? i a = none)) ∧
    ((Vector3D.new (F32.ofZ 1) (F32.ofZ 2) (F32.ofZ 3)).get? 0 = some (F32.ofZ 1) ∧
     (Vector3D.new (F32.ofZ 1) (F32.ofZ 2) (F32.ofZ 3)).get? 1 = some (F32.ofZ 2) ∧
     (Vector3D.new (F32.ofZ 1) (F32.ofZ 2) (F32.ofZ 3)).get? 2 = some (F32.ofZ 3) ∧
     (Vector3D.new (F32.ofZ 1) (F32.ofZ 2) (F32.ofZ 3)).get? 3 = none) := by
  refine ⟨fun v a => ⟨rfl, rfl, rfl, rfl, rfl, rfl, fun i hi => ?_⟩, rfl, rfl, rfl, rfl⟩
  obtain ⟨k, rfl⟩ : ∃ k, i = k + 3 := ⟨i - 3, by omega⟩
  exact ⟨rfl, rfl⟩

/-- C4 witness: the out-of-bounds clause at index `3` on `(1,2,3)`. -/
theorem vector_index_spec_witness :
    (Vector3D.new (F32.ofZ 1) (F32.ofZ 2) (F32.ofZ 3)).get? 3 = none ∧
    (Vector3D.new (F32.ofZ 1) (F32.ofZ 2) (F32.ofZ 3)).set? 3 (F32.ofZ 4) = none :=
  (vector_index_spec.1 (Vector3D.new (F32.ofZ 1) (F32.ofZ 2) (F32.ofZ 3))
    (F32.ofZ 4)).2.2.2.2.2.2 3 (by decide)

/-- C7: dividing a vector by the scalar `0.0` is never an error: every
component of the result is `±inf` or NaN (IEEE-754 semantics, no panic
and no special case), and `(1,2,3) / 0.0 = (inf, inf, inf)`. -/
theorem vector_div_zero_spec :
    (∀ v : Vector3D,
      (v.div F32.zero).x.isNonFinite = true ∧
      (v.div F32.zero).y.isNonFinite = true ∧
      (v.div F32.zero).z.isNonFinite = true) ∧
    Vector3D.beq ((Vector3D.new (F32.ofZ 1) (F32.ofZ 2) (F32.ofZ 3)).div F32.zero)
      (Vector3D.new (F32.inf false) (F32.inf false) (F32.inf false)) = true := by
  exact ⟨fun v => ⟨F32.fdiv_zero_nonFin v.x, F32.fdiv_zero_nonFin v.y,
    F32.fdiv_zero_nonFin v.z⟩, by decide⟩

/-- C8: `magnitude` is the `f32` Euclidean norm
`sqrt(x*x + y*y + z*z)` and `normalize` divides componentwise by the
magnitude; `magnitude (1,2,3) == 3.7416575`, `magnitude (0,0,0) == 0.0`,
`magnitude (1,1,1) == 1.7320508`, and
`normalize (1,2,3) == (0.26726124, 0.5345225, 0.8017837)`. -/
theorem magnitude_normalize_spec :
    (∀ v : Vector3D,
      v.magnitude =
        F32.fsqrt (F32.fadd (F32.fadd (F32.fmul v.x v.x) (F32.fmul v.y v.y))
          (F32.fmul v.z v.z)) ∧
      v.normalize =
        ⟨F32.fdiv v.x v.magnitude, F32.fdiv v.y v.magnitude, F32.fdiv v.z v.magnitude⟩) ∧
    F32.feq ((Vector3D.new (F32.ofZ 1) (F32.ofZ 2) (F32.ofZ 3)).magnitude)
      (F32.ofDec 37416575 10000000) = true ∧
    F32.feq ((Vector3D.new (F32.ofZ 0) (F32.ofZ 0) (F32.ofZ 0)).magnitude)
      (F32.ofZ 0) = true ∧
    F32.feq ((Vector3D.new (F32.ofZ 1) (F32.ofZ 1) (F32.ofZ 1)).magnitude)
      (F32.ofDec 17320508 10000000) = true ∧
    Vector3D.beq ((Vector3D.new (F32.ofZ 1) (F32.ofZ 2) (F32.ofZ 3)).normalize)
      (Vector3D.new (F32.ofDec 26726124 100000000) (F32.ofDec 5345225 10000000)
        (F32.ofDec 8017837 10000000)) = true := by
  exact ⟨fun v => ⟨rfl, rfl⟩, by decide, by decide, by decide, by decide⟩

/-- C10: `normalize (0,0,0)` has all three components NaN (each is
`0.0 / 0.0`), and therefore compares unequal (`f32 ==`) to every
vector, itself included. -/
theorem normalize_zero_spec :
    (Vector3D.new (F32.ofZ 0) (F32.ofZ 0) (F32.ofZ 0)).normalize =
      ⟨F32.nan, F32.nan, F32.nan⟩ ∧
    ∀ w : Vector3D,
      Vector3D.beq ((Vector3D.new (F32.ofZ 0) (F32.ofZ 0) (F32.ofZ 0)).normalize) w
        = false := by
  have h : (Vector3D.new (F32.ofZ 0) (F32.ofZ 0) (F32.ofZ 0)).normalize =
      ⟨F32.nan, F32.nan, F32.nan⟩ := by decide
  refine ⟨h, fun w => ?_⟩
  rw [h]
  rfl

/-- C3: writes through either matrix accessor are visible through the
other and leave everything else unchanged: after writing vector `v` to
whole-column `c`, reading `(r, c)` yields `v[r]` and the other two
columns are untouched; after writing a scalar to `(r, c)`, reading
whole-column `c` yields the old column with only component `r`
replaced (and the other columns are untouched). -/
theorem matrix_write_aliasing_spec :
    (∀ (M : Matrix3D) (c : Fin 3) (v : Vector3D),
      (∀ r : Fin 3, (M.setCol c v).entry r c = v.nth r) ∧
      (∀ c' : Fin 3, c' ≠ c → ∀ r : Fin 3, (M.setCol c v).entry r c' = M.entry r c')) ∧
    (∀ (M : Matrix3D) (r c : Fin 3) (a : F32),
      (M.setEntry r c a).col c = (M.col c).setNth r a ∧
      (∀ c' : Fin 3, c' ≠ c → (M.setEntry r c a).col c' = M.col c')) := by
  refine ⟨fun M c v => ⟨fun r => ?_, fun c' hne r => ?_⟩,
    fun M r c a => ⟨?_, fun c' hne => ?_⟩⟩
  · simp [Matrix3D.setCol, Matrix3D.entry]
  · simp [Matrix3D.setCol, Matrix3D.entry, hne]
  · fin_cases r <;>
      simp [Matrix3D.setEntry, Matrix3D.col, Vector3D.setNth]
  · simp [Matrix3D.setEntry, Matrix3D.col, hne]

/-- C3 witness: writing column 0 of `new(1..9)` leaves entry `(0, 1)`
unchanged, and writing entry `(0, 0)` leaves column 1 unchanged. -/
theorem matrix_write_aliasing_spec_witness :
    ((Matrix3D.new (F32.ofZ 1) (F32.ofZ 2) (F32.ofZ 3) (F32.ofZ 4) (F32.ofZ 5)
        (F32.ofZ 6) (F32.ofZ 7) (F32.ofZ 8) (F32.ofZ 9)).setCol 0
          (Vector3D.new (F32.ofZ 10) (F32.ofZ 11) (F32.ofZ 12))).entry 0 1 =
      (Matrix3D.new (F32.ofZ 1) (F32.ofZ 2) (F32.ofZ 3) (F32.ofZ 4) (F32.ofZ 5)
        (F32.ofZ 6) (F32.ofZ 7) (F32.ofZ 8) (F32.ofZ 9)).entry 0 1 ∧
    ((Matrix3D.new (F32.ofZ 1) (F32.ofZ 2) (F32.ofZ 3) (F32.ofZ 4) (F32.ofZ 5)
        (F32.ofZ 6) (F32.ofZ 7) (F32.ofZ 8) (F32.ofZ 9)).setEntry 0 0
          (F32.ofZ 10)).col 1 =
      (Matrix3D.new (F32.ofZ 1) (F32.ofZ 2) (F32.ofZ 3) (F32.ofZ 4) (F32.ofZ 5)
        (F32.ofZ 6) (F32.ofZ 7) (F32.ofZ 8) (F32.ofZ 9)).col 1 :=
  ⟨(matrix_write_aliasing_spec.1 _ 0 _).2 1 (by decide) 0,
   (matrix_write_aliasing_spec.2 _ 0 0 (F32.ofZ 10)).2 1 (by decide)⟩

/-- C5 counterexample: the claim says an out-of-range `(row, col)` pair
is undefined behaviour (unchecked access) rather than a loud failure,
in contrast to the vector accessor; but the accessor's body
`&self.n[j][i]` uses Rust's bounds-checked array indexing, so the
out-of-range pair `(3, 0)` panics (modelled `none`) — exactly the loud
failure the vector accessor produces at index 3. -/
theorem matrix_pair_oob_cex :
    (Matrix3D.new (F32.ofZ 1) (F32.ofZ 2) (F32.ofZ 3) (F32.ofZ 4) (F32.ofZ 5)
      (F32.ofZ 6) (F32.ofZ 7) (F32.ofZ 8) (F32.ofZ 9)).get? 3 0 = none ∧
    (Matrix3D.new (F32.ofZ 1) (F32.ofZ 2) (F32.ofZ 3) (F32.ofZ 4) (F32.ofZ 5)
      (F32.ofZ 6) (F32.ofZ 7) (F32.ofZ 8) (F32.ofZ 9)).get? 0 3 = none ∧
    (Vector3D.new (F32.ofZ 1) (F32.ofZ 2) (F32.ofZ 3)).get? 3 = none :=
  ⟨rfl, rfl, rfl⟩

/-- C5 amended: the `(row, col)` accessor performs no bounds check of
its own, but its array accesses `self.n[j][i]` are bounds-checked by
Rust, so every out-of-range pair (row or col ≥ 3) panics — a loud
failure like the vector accessor, not undefined behaviour — on both the
read and the write path, while in-range pairs read the stored entry. -/
theorem matrix_pair_checked_spec :
    ∀ (M : Matrix3D) (i j : Nat) (a : F32),
      (3 ≤ i ∨ 3 ≤ j → M.get? i j = none ∧ M.set? i j a = none) ∧
      (∀ (hi : i < 3) (hj : j < 3),
        M.get? i j = some (M.entry ⟨i, hi⟩ ⟨j, hj⟩)) := by
  intro M i j a
  constructor
  · intro h
    constructor <;>
      · simp only [Matrix3D.get?, Matrix3D.set?]
        split
        · split
          · omega
          · rfl
        · rfl
  · intro hi hj
    simp [Matrix3D.get?, Matrix3D.entry, hi, hj]

/-- C5 amended witness: both out-of-range clauses fire at `(3, 0)`. -/
theorem matrix_pair_checked_spec_witness :
    (Matrix3D.new (F32.ofZ 1) (F32.ofZ 2) (F32.ofZ 3) (F32.ofZ 4) (F32.ofZ 5)
      (F32.ofZ 6) (F32.ofZ 7) (F32.ofZ 8) (F32.ofZ 9)).get? 3 0 = none ∧
    (Matrix3D.new (F32.ofZ 1) (F32.ofZ 2) (F32.ofZ 3) (F32.ofZ 4) (F32.ofZ 5)
      (F32.ofZ 6) (F32.ofZ 7) (F32.ofZ 8) (F32.ofZ 9)).set? 3 0 (F32.ofZ 10) = none :=
  (matrix_pair_checked_spec
    (Matrix3D.new (F32.ofZ 1) (F32.ofZ 2) (F32.ofZ 3) (F32.ofZ 4) (F32.ofZ 5)
      (F32.ofZ 6) (F32.ofZ 7) (F32.ofZ 8) (F32.ofZ 9)) 3 0 (F32.ofZ 10)).1
    (Or.inl (by decide))

/-- C9 counterexample: `neg(neg v) == v` fails at `v = (NaN, 0, 0)`,
because the `f32 ==` the derived `PartialEq` uses makes NaN unequal to
itself. -/
theorem neg_neg_nan_cex :
    Vector3D.beq
      ((Vector3D.new F32.nan (F32.ofZ 0) (F32.ofZ 0)).neg.neg)
      (Vector3D.new F32.nan (F32.ofZ 0) (F32.ofZ 0)) = false := by
  decide

/-- C9 amended: double negation is the identity on the representation
(`neg(neg v) = v` bit for bit, for every `v`), and the `==` form
`neg(neg v) == v` holds for every `v` with no NaN component. -/
theorem neg_neg_spec :
    (∀ v : Vector3D, v.neg.neg = v) ∧
    (∀ v : Vector3D, v.x ≠ F32.nan → v.y ≠ F32.nan → v.z ≠ F32.nan →
      Vector3D.beq v.neg.neg v = true) := by
  constructor
  · intro v
    cases v with
    | mk x y z => simp [Vector3D.neg, F32.fneg_fneg]
  · intro v hx hy hz
    cases v with
    | mk x y z =>
      simp [Vector3D.neg, Vector3D.beq, F32.fneg_fneg,
        F32.feq_self _ hx, F32.feq_self _ hy, F32.feq_self _ hz]

/-- C9 amended witness: the `==` clause at `v = (1, 2, 3)`. -/
theorem neg_neg_spec_witness :
    Vector3D.beq ((Vector3D.new (F32.ofZ 1) (F32.ofZ 2) (F32.ofZ 3)).neg.neg)
      (Vector3D.new (F32.ofZ 1) (F32.ofZ 2) (F32.ofZ 3)) = true :=
  neg_neg_spec.2 (Vector3D.new (F32.ofZ 1) (F32.ofZ 2) (F32.ofZ 3))
    (by decide) (by decide) (by decide)

/-!  ## Exact-rounding lemmas (used for claim C6)  -/

/-- `countB` of a predicate that holds exactly below a threshold `t`
counts `min t n`. -/
theorem F32.countB_threshold (t n : Nat) (f : Nat → Bool)
    (h : ∀ k, k < n → (f k = true ↔ k < t)) : F32.countB f n = min t n := by
  induction n with
  | zero => simp [F32.countB]
  | succ n ih =>
    have ih' := ih (fun k hk => h k (by omega))
    show F32.countB f n + (if f n then 1 else 0) = min t (n + 1)
    by_cases hn : n < t
    · rw [ih', (h n (by omega)).2 hn]
      simp
      omega
    · have hf : f n = false := by
        cases hfn : f n with
        | true => exact absurd ((h n (by omega)).1 hfn) hn
        | false => rfl
      rw [ih', hf]
      simp
      omega

/-- The exponent search recovers the exponent of a value already in
canonical form. -/
theorem F32.expOf_exact (E m : Nat) (h : F32.validFin E m) (hm : m ≠ 0) :
    F32.expOf (m * 2 ^ E) (2 ^ 150) = E := by
  unfold expOf
  rcases h with ⟨hm0, _⟩ | ⟨hE, hpos, hlt⟩ | ⟨hE1, hE2, hge, hlt⟩
  · exact absurd hm0 hm
  · have hall : ∀ k, k < 254 →
        ((2 ^ k * 2 ^ 150 ≤ m * 2 ^ E * 2 ^ 126) ↔ k < 0) := by
      intro k _
      simp only [Nat.not_lt_zero, iff_false, not_le]
      calc m * 2 ^ E * 2 ^ 126 < 2 ^ 23 * 2 ^ E * 2 ^ 126 :=
            mul_lt_mul_of_pos_right (mul_lt_mul_of_pos_right hlt (by positivity))
              (by positivity)
        _ = 2 ^ (149 + E) := by rw [← pow_add, ← pow_add]; ring_nf
        _ ≤ 2 ^ (149 + 1) := Nat.pow_le_pow_right (by norm_num) (by omega)
        _ ≤ 2 ^ k * 2 ^ 150 := by
            rw [← pow_add]
            exact Nat.pow_le_pow_right (by norm_num) (by omega)
    have := F32.countB_threshold 0 254
      (fun k => decide (2 ^ k * 2 ^ 150 ≤ m * 2 ^ E * 2 ^ 126))
      (fun k hk => by simpa using hall k hk)
    rw [this]
    omega
  · have hall : ∀ k, k < 254 →
        ((2 ^ k * 2 ^ 150 ≤ m * 2 ^ E * 2 ^ 126) ↔ k < E) := by
      intro k _
      constructor
      · intro hle
        by_contra hk
        have hEk : E ≤ k := by omega
        have h1 : m * 2 ^ E * 2 ^ 126 < 2 ^ (E + 150) := by
          calc m * 2 ^ E * 2 ^ 126 < 2 ^ 24 * 2 ^ E * 2 ^ 126 :=
                mul_lt_mul_of_pos_right (mul_lt_mul_of_pos_right hlt (by positivity))
                  (by positivity)
            _ = 2 ^ (E + 150) := by rw [← pow_add, ← pow_add]; ring_nf
        have h2 : (2 : Nat) ^ (E + 150) ≤ 2 ^ k * 2 ^ 150 := by
          rw [← pow_add]
          exact Nat.pow_le_pow_right (by norm_num) (by omega)
        omega
      · intro hk
        calc 2 ^ k * 2 ^ 150 = 2 ^ (k + 150) := by rw [← pow_add]
          _ ≤ 2 ^ (E + 149) := Nat.pow_le_pow_right (by norm_num) (by omega)
          _ = 2 ^ 23 * 2 ^ E * 2 ^ 126 := by rw [← pow_add, ← pow_add]; ring_nf
          _ ≤ m * 2 ^ E * 2 ^ 126 := by
            exact Nat.mul_le_mul_right _ (Nat.mul_le_mul_right _ hge)
    have := F32.countB_threshold E 254
      (fun k => decide (2 ^ k * 2 ^ 150 ≤ m * 2 ^ E * 2 ^ 126))
      (fun k hk => by simpa using hall k hk)
    rw [this]
    omega

/-- Rounding at the right exponent returns a canonical value unchanged
(the significand divides out exactly, remainder `0`). -/
theorem F32.roundAt_exact (s : Bool) (E m : Nat) (hm : m ≠ 0) (hlt : m < 2 ^ 24) :
    F32.roundAt s E (m * 2 ^ E) (2 ^ 150) = F32.finite s E m := by
  unfold roundAt
  have hB : 0 < 2 ^ 150 * 2 ^ E := by positivity
  have hA : m * 2 ^ E * 2 ^ 150 = m * (2 ^ 150 * 2 ^ E) := by ring
  rw [hA, Nat.mul_div_cancel _ hB, Nat.mul_mod_left]
  unfold rnEven mkFin
  rw [if_pos (show 2 * 0 < 2 ^ 150 * 2 ^ E by simp [hB]), if_neg hm, if_pos hlt]

/-- Round-to-nearest of a value already representable (in canonical
form) is that value: rounding is the identity on exact results. -/
theorem F32.roundPos_exact (s : Bool) (E m : Nat) (h : F32.validFin E m)
    (hm : m ≠ 0) : F32.roundPos s (m * 2 ^ E) (2 ^ 150) = F32.finite s E m := by
  unfold roundPos
  have hnum : m * 2 ^ E ≠ 0 := Nat.mul_ne_zero hm (pow_ne_zero _ (by norm_num))
  rw [if_neg hnum, F32.expOf_exact E m h hm]
  have hlt : m < 2 ^ 24 := by
    rcases h with ⟨hm0, _⟩ | ⟨_, _, hlt⟩ | ⟨_, _, _, hlt⟩
    · exact absurd hm0 hm
    · calc m < 2 ^ 23 := hlt
        _ < 2 ^ 24 := by norm_num
    · exact hlt
  exact F32.roundAt_exact s E m hm hlt

/-- Negation negates the exact scaled value. -/
theorem F32.scaled_fneg (x : F32) : (F32.fneg x).scaled = -x.scaled := by
  cases x with
  | nan => simp [F32.fneg, F32.scaled]
  | inf s => simp [F32.fneg, F32.scaled]
  | finite s E m => cases s <;> simp [F32.fneg, F32.scaled]

/-- If the `f32` sum of `a` and `b` happened to be exact, subtracting
`b` again recovers `a` (up to `f32 ==`): the exact difference is the
value of `a`, which rounds to itself. -/
theorem F32.exact_cancel (a b : F32) (ha : a.validB = true)
    (haf : a.isFinite = true) (hbf : b.isFinite = true)
    (hSf : (F32.fadd a b).isFinite = true)
    (hs : (F32.fadd a b).scaled = a.scaled + b.scaled) :
    F32.feq (F32.fsub (F32.fadd a b) b) a = true := by
  cases a with
  | nan => simp [F32.isFinite] at haf
  | inf s => simp [F32.isFinite] at haf
  | finite sa Ea ma =>
  cases b with
  | nan => simp [F32.isFinite] at hbf
  | inf s => simp [F32.isFinite] at hbf
  | finite sb Eb mb =>
  cases hS : F32.fadd (F32.finite sa Ea ma) (F32.finite sb Eb mb) with
  | nan => rw [hS] at hSf; simp [F32.isFinite] at hSf
  | inf s => rw [hS] at hSf; simp [F32.isFinite] at hSf
  | finite sS ES mS =>
  rw [hS] at hs
  unfold fsub
  show F32.feq (F32.fadd (F32.finite sS ES mS) (F32.finite (!sb) Eb mb))
    (F32.finite sa Ea ma) = true
  have hI : F32.scaled (F32.finite sS ES mS) + F32.scaled (F32.finite (!sb) Eb mb)
      = F32.scaled (F32.finite sa Ea ma) := by
    have h1 : F32.scaled (F32.finite (!sb) Eb mb)
        = -F32.scaled (F32.finite sb Eb mb) := F32.scaled_fneg (F32.finite sb Eb mb)
    rw [h1, hs]
    ring
  show (if F32.scaled (F32.finite sS ES mS) + F32.scaled (F32.finite (!sb) Eb mb) = 0
      then if mS = 0 && mb = 0 then F32.finite (sS && !sb) 1 0 else F32.finite false 1 0
      else F32.roundPos
        (decide (F32.scaled (F32.finite sS ES mS) + F32.scaled (F32.finite (!sb) Eb mb) < 0))
        (F32.scaled (F32.finite sS ES mS) + F32.scaled (F32.finite (!sb) Eb mb)).natAbs
        (2 ^ 150)).feq (F32.finite sa Ea ma) = true
  rw [hI]
  by_cases hma : ma = 0
  · subst hma
    rw [if_pos (by simp [F32.scaled])]
    split <;> simp [F32.feq]
  · have hne0 : ma * 2 ^ Ea ≠ 0 := Nat.mul_ne_zero hma (pow_ne_zero _ (by norm_num))
    have hpos : 0 < ma * 2 ^ Ea := Nat.pos_of_ne_zero hne0
    have hne : F32.scaled (F32.finite sa Ea ma) ≠ 0 := by
      cases sa <;> simp [F32.scaled, hne0] <;> exact hma
    rw [if_neg hne]
    have habs : (F32.scaled (F32.finite sa Ea ma)).natAbs = ma * 2 ^ Ea := by
      cases sa
      · show ((1 : Int) * ((ma * 2 ^ Ea : Nat) : Int)).natAbs = ma * 2 ^ Ea
        rw [one_mul, Int.natAbs_ofNat]
      · show ((-1 : Int) * ((ma * 2 ^ Ea : Nat) : Int)).natAbs = ma * 2 ^ Ea
        rw [neg_one_mul, Int.natAbs_neg, Int.natAbs_ofNat]
    have hsign : decide (F32.scaled (F32.finite sa Ea ma) < 0) = sa := by
      cases sa <;> simp [F32.scaled, hpos, Nat.pos_of_ne_zero hma]
    have hvalid : F32.validFin Ea ma := by
      have := ha
      simp only [F32.validB] at this
      exact of_decide_eq_true this
    rw [hsign, habs, F32.roundPos_exact sa Ea ma hvalid hma]
    exact F32.feq_self _ (by simp)

/-- The `f32` addition of `x` and `y` was exact: all three values are
finite and the sum's exact value equals the sum of the exact values
(no rounding happened). -/
def F32.ExactAddPair (x y : F32) : Prop :=
  x.isFinite = true ∧ y.isFinite = true ∧ (F32.fadd x y).isFinite = true ∧
    (F32.fadd x y).scaled = x.scaled + y.scaled

instance (x y : F32) : Decidable (F32.ExactAddPair x y) := by
  unfold F32.ExactAddPair
  infer_instance

/-- C6 counterexample: `sub (add a b) b == a` fails at
`a = (1, 0, 0)`, `b = (2^25, 0, 0)`: the `f32` sum `1 + 2^25` rounds to
`2^25` (the exact sum `2^25 + 1` needs 26 significand bits), so
subtracting `b` gives `(0, 0, 0) ≠ a`. -/
theorem add_sub_cancel_cex :
    Vector3D.beq
      (Vector3D.sub
        (Vector3D.add (Vector3D.new (F32.ofZ 1) (F32.ofZ 0) (F32.ofZ 0))
          (Vector3D.new (F32.ofZ 33554432) (F32.ofZ 0) (F32.ofZ 0)))
        (Vector3D.new (F32.ofZ 33554432) (F32.ofZ 0) (F32.ofZ 0)))
      (Vector3D.new (F32.ofZ 1) (F32.ofZ 0) (F32.ofZ 0)) = false := by
  decide

/-- C6 amended: `sub (add a b) b == a` holds whenever the componentwise
`f32` additions `a + b` are exact (finite operands, no rounding) — in
particular for the small-integer test fixtures — but not for arbitrary
vectors, where rounding (or NaN) can lose `a`. -/
theorem add_sub_cancel_spec :
    ∀ a b : Vector3D,
      a.x.validB = true → a.y.validB = true → a.z.validB = true →
      F32.ExactAddPair a.x b.x → F32.ExactAddPair a.y b.y →
      F32.ExactAddPair a.z b.z →
      Vector3D.beq (Vector3D.sub (Vector3D.add a b) b) a = true := by
  intro a b hvx hvy hvz hx hy hz
  obtain ⟨hx1, hx2, hx3, hx4⟩ := hx
  obtain ⟨hy1, hy2, hy3, hy4⟩ := hy
  obtain ⟨hz1, hz2, hz3, hz4⟩ := hz
  have cx := F32.exact_cancel a.x b.x hvx hx1 hx2 hx3 hx4
  have cy := F32.exact_cancel a.y b.y hvy hy1 hy2 hy3 hy4
  have cz := F32.exact_cancel a.z b.z hvz hz1 hz2 hz3 hz4
  simp [Vector3D.beq, Vector3D.sub, Vector3D.add, cx, cy, cz]

/-- C6 amended witness: the test fixture `a = (1,2,3)`, `b = (4,5,6)`
satisfies the exactness hypotheses and the cancellation. -/
theorem add_sub_cancel_spec_witness :
    Vector3D.beq
      (Vector3D.sub
        (Vector3D.add (Vector3D.new (F32.ofZ 1) (F32.ofZ 2) (F32.ofZ 3))
          (Vector3D.new (F32.ofZ 4) (F32.ofZ 5) (F32.ofZ 6)))
        (Vector3D.new (F32.ofZ 4) (F32.ofZ 5) (F32.ofZ 6)))
      (Vector3D.new (F32.ofZ 1) (F32.ofZ 2) (F32.ofZ 3)) = true :=
  add_sub_cancel_spec (Vector3D.new (F32.ofZ 1) (F32.ofZ 2) (F32.ofZ 3))
    (Vector3D.new (F32.ofZ 4) (F32.ofZ 5) (F32.ofZ 6))
    (by decide) (by decide) (by decide) (by decide) (by decide) (by decide)
